import Mathlib

/-!
# xDS control plane for shuffle sharding: `xds-control-plane/main.go`

A shallow embedding of `ControlPlane.SetRuntimeConfig`, `NewControlPlane` and the
publishes made by `main`, followed by the properties of a publish. The snapshot cache and
the discovery session belong to the go-control-plane library, which `main.go` only calls;
what the program needs of them is modelled from the specification and marked as such.

Conventions of the embedding:

* a Go `map[string]V` is a finite map `GoMap V`; two maps are equal when they hold
  the same entries, whatever the order in which they were filled;
* the argument `customerShards` is an association list with distinct keys: the map
  together with the order in which `range` visits it (Go leaves that order open);
* a Go `int` is an integer of the 64-bit range `[-2^63, 2^63)`;
* a `float64` is represented by its exact numeric value; every `float64` built by
  this program comes from an integer and so has an integral value;
* `time.Now().Unix()` is the explicit argument `now`.
-/

namespace XdsControlPlane

/-! ## Go values -/

/-- A Go `map[string]V`. -/
abbrev GoMap (V : Type) := Finmap (fun _ : String => V)

/-- The range of a Go `int` on a 64-bit platform. -/
def isGoInt (n : Int) : Prop := -(2 : Int) ^ 63 ≤ n ∧ n < (2 : Int) ^ 63

instance (n : Int) : Decidable (isGoInt n) := by
  unfold isGoInt; infer_instance

/-- The number of low bits a magnitude `m` loses when it is brought down to the 53 bits
of a `float64` significand: the least `e` with `m / 2^e < 2^53`. The first argument bounds
the number of halvings; 64 of them are enough for every 64-bit magnitude. -/
def normShift : Nat → Nat → Nat
  | 0, _ => 0
  | fuel + 1, m => if m < 2 ^ 53 then 0 else normShift fuel (m / 2) + 1

/-- The `float64` nearest to the magnitude `m`, ties going to the even significand
(IEEE 754 round-to-nearest-even, the rounding of a Go integer-to-float conversion). -/
def roundToFloat64 (m : Nat) : Nat :=
  let e := normShift 64 m
  let q := m / 2 ^ e
  let r := m % 2 ^ e
  let half := 2 ^ e / 2
  if half < r ∨ (r = half ∧ 0 < e ∧ q % 2 = 1) then (q + 1) * 2 ^ e else q * 2 ^ e

/-- The Go conversion `float64(n)` of an `int`, as the exact value of the result. -/
def float64 (n : Int) : Int :=
  if n < 0 then -((roundToFloat64 n.natAbs : Nat) : Int) else ((roundToFloat64 n.natAbs : Nat) : Int)

/-- The decimal digit `'0' + d`. -/
def digitChar (d : Nat) : Char := Char.ofNat (48 + d)

/-- The decimal digits of an unsigned number, most significant first
(`strconv.FormatUint(u, 10)`). -/
def formatBits (u : Nat) : List Char :=
  if _h : 10 ≤ u then formatBits (u / 10) ++ [digitChar (u % 10)] else [digitChar u]
termination_by u
decreasing_by omega

/-- The verb `%d` of `fmt.Sprintf` applied to an integer. -/
def formatInt (n : Int) : String :=
  if n < 0 then String.mk ('-' :: formatBits n.natAbs) else String.mk (formatBits n.natAbs)

/-! ## Protobuf messages built by the program -/

/-- A `structpb.Value`; the program only builds number values. -/
inductive Value where
  | NullValue
  | NumberValue (v : Int)
  | StringValue (s : String)
  | BoolValue (b : Bool)
  deriving DecidableEq, Repr

/-- A `structpb.Struct`. -/
structure Struct where
  Fields : GoMap Value
  deriving DecidableEq

/-- A `runtime.Runtime` resource. -/
structure Runtime where
  Name : String
  Layer : Struct
  deriving DecidableEq

/-! ## The snapshot cache library -/

/-- The constant `resource.RuntimeType`. -/
def resource.RuntimeType : String := "type.googleapis.com/envoy.service.runtime.v3.Runtime"

/-- Modelled from the spec: the resource types the protocol carries. The library that
defines them (go-control-plane) is not part of the sources; these are its type URLs. -/
def resource.knownTypes : List String :=
  [ "type.googleapis.com/envoy.config.endpoint.v3.ClusterLoadAssignment",
    "type.googleapis.com/envoy.config.cluster.v3.Cluster",
    "type.googleapis.com/envoy.config.route.v3.RouteConfiguration",
    "type.googleapis.com/envoy.config.route.v3.ScopedRouteConfiguration",
    "type.googleapis.com/envoy.config.route.v3.VirtualHost",
    "type.googleapis.com/envoy.config.listener.v3.Listener",
    "type.googleapis.com/envoy.extensions.transport_sockets.tls.v3.Secret",
    "type.googleapis.com/envoy.service.runtime.v3.Runtime",
    "type.googleapis.com/envoy.config.core.v3.TypedExtensionConfig",
    "type.googleapis.com/ratelimit.config.ratelimit.v3.RateLimitConfig" ]

/-- Modelled from the spec: a `cache.Snapshot` of the snapshot cache library, which is not
part of the sources: the resources of each resource type, stamped with one outer version. -/
structure Snapshot where
  Version : String
  Resources : GoMap (List Runtime)
  deriving DecidableEq

/-- Modelled from the spec: the resources a snapshot holds for a resource type; a type the
snapshot was given nothing for holds none. -/
def Snapshot.GetResources (s : Snapshot) (typ : String) : List Runtime :=
  (s.Resources.lookup typ).getD []

/-- Modelled from the spec: `cache.NewSnapshot(version, resources)` of the snapshot cache
library, which is not part of the sources. It stamps the given resources, grouped by type,
with the version; the library refuses a resource type the protocol does not carry. The
second argument is the Go map literal, entry by entry. -/
def cache.NewSnapshot (version : String) (resources : List (String × List Runtime)) :
    Except String Snapshot :=
  match resources.find? (fun e => !(resource.knownTypes.contains e.1)) with
  | some e => .error ("unknown resource type: " ++ e.1)
  | none =>
    .ok { Version := version
          Resources := resources.foldl (fun m e => m.insert e.1 e.2) ∅ }

/-- Modelled from the spec: `SetSnapshot(nodeID, snapshot)` of the snapshot cache library,
which is not part of the sources: it replaces the node's current snapshot and leaves every
other node's entry alone; a node not seen before is accepted. -/
def cache.SetSnapshot (c : GoMap Snapshot) (node : String) (snapshot : Snapshot) :
    Except String (GoMap Snapshot) :=
  .ok (c.insert node snapshot)

/-! ## `main.go` -/

/-- The struct `ControlPlane`. -/
structure ControlPlane where
  cache : GoMap Snapshot
  nodeID : String
  deriving DecidableEq

/-- The constructor `NewControlPlane`: an empty snapshot cache and the fixed node ID. -/
def NewControlPlane : ControlPlane :=
  { cache := ∅, nodeID := "envoy-shuffle-shard" }

/-- The runtime key of a customer: `fmt.Sprintf("shuffle_sharding.customer.%s.shard_size", customer)`. -/
def customerKey (customer : String) : String :=
  "shuffle_sharding.customer." ++ customer ++ ".shard_size"

/-- The number value `&structpb.Value{Kind: &structpb.Value_NumberValue{NumberValue: float64(n)}}`. -/
def numberValue (n : Int) : Value := Value.NumberValue (float64 n)

/-- Lines 43-59 of `SetRuntimeConfig`: the map `fields` after the two global entries and
the loop over `customerShards`, which visits the entries in the order of the list. -/
def runtimeFields (totalHosts defaultShardSize : Int)
    (customerShards : AList (fun _ : String => Int)) : GoMap Value :=
  let fields : GoMap Value := ∅
  let fields := fields.insert "shuffle_sharding.total_hosts" (numberValue totalHosts)
  let fields := fields.insert "shuffle_sharding.default_shard_size" (numberValue defaultShardSize)
  customerShards.entries.foldl
    (fun fields e => fields.insert (customerKey e.1) (numberValue e.2)) fields

/-- The body of the loop of `SetRuntimeConfig` (lines 54-59), named for the lemmas about it. -/
abbrev loopStep (fields : GoMap Value) (e : Sigma (fun _ : String => Int)) : GoMap Value :=
  fields.insert (customerKey e.1) (numberValue e.2)

/-- The outer version `fmt.Sprintf("snapshot-%d", time.Now().Unix())`. -/
def snapshotVersion (now : Int) : String := "snapshot-" ++ formatInt now

/-- Lines 61-75 of `SetRuntimeConfig`: the call of `cache.NewSnapshot` on the runtime layer. -/
def buildSnapshot (now totalHosts defaultShardSize : Int)
    (customerShards : AList (fun _ : String => Int)) : Except String Snapshot :=
  let runtimeLayer : Struct := { Fields := runtimeFields totalHosts defaultShardSize customerShards }
  cache.NewSnapshot (snapshotVersion now)
    [(resource.RuntimeType, [{ Name := "runtime", Layer := runtimeLayer }])]

/-- The method `ControlPlane.SetRuntimeConfig`, at clock reading `now`. It returns the error,
or the control plane with its cache updated. -/
def ControlPlane.SetRuntimeConfig (cp : ControlPlane) (now totalHosts defaultShardSize : Int)
    (customerShards : AList (fun _ : String => Int)) : Except String ControlPlane :=
  match buildSnapshot now totalHosts defaultShardSize customerShards with
  | .error err => .error err
  | .ok snapshot =>
    match cache.SetSnapshot cp.cache cp.nodeID snapshot with
    | .error err => .error err
    | .ok c => .ok { cp with cache := c }

/-- One call of `SetRuntimeConfig`: the clock reading at the call and the three arguments. -/
structure Call where
  now : Int
  totalHosts : Int
  defaultShardSize : Int
  customerShards : AList (fun _ : String => Int)

/-- A sequence of `SetRuntimeConfig` calls on one control plane: for each call that
succeeds, its clock reading and the outer version of the snapshot current after it. -/
def publishVersions (cp : ControlPlane) : List Call → List (Int × String)
  | [] => []
  | c :: cs =>
    match cp.SetRuntimeConfig c.now c.totalHosts c.defaultShardSize c.customerShards with
    | .error _ => publishVersions cp cs
    | .ok cp' =>
      match cp'.cache.lookup cp'.nodeID with
      | none => publishVersions cp' cs
      | some snapshot => (c.now, snapshot.Version) :: publishVersions cp' cs

/-- The customer shards of the first publish of `main`. -/
def mainShards₀ : AList (fun _ : String => Int) :=
  (((∅ : AList (fun _ : String => Int)).insert "customer-C" 2).insert "customer-B" 2).insert
    "customer-A" 2

/-- The customer shards of the second publish of `main`. -/
def mainShards₁ : AList (fun _ : String => Int) :=
  (((∅ : AList (fun _ : String => Int)).insert "customer-C" 2).insert "customer-B" 2).insert
    "customer-A" 3

/-- The customer shards of the third publish of `main`. -/
def mainShards₂ : AList (fun _ : String => Int) :=
  (((∅ : AList (fun _ : String => Int)).insert "customer-C" 2).insert "customer-B" 4).insert
    "customer-A" 3

/-- A call of `SetRuntimeConfig` whose returned error is dropped, as in the background
function of `main`: on an error the control plane is left as it was. -/
def publishIgnoringError (cp : ControlPlane) (now totalHosts defaultShardSize : Int)
    (customerShards : AList (fun _ : String => Int)) : ControlPlane :=
  match cp.SetRuntimeConfig now totalHosts defaultShardSize customerShards with
  | .error _ => cp
  | .ok cp' => cp'

/-- The three publishes of `main`, made at the clock readings `t₀`, `t₁`, `t₂`: the initial
configuration, whose failure ends the program, then the two background updates. -/
def mainPublishes (t₀ t₁ t₂ : Int) : Except String ControlPlane :=
  match NewControlPlane.SetRuntimeConfig t₀ 8 2 mainShards₀ with
  | .error err => .error err
  | .ok cp =>
    let cp := publishIgnoringError cp t₁ 12 2 mainShards₁
    let cp := publishIgnoringError cp t₂ 12 2 mainShards₂
    .ok cp

/-! ## Reading a version back -/

/-- Reads a sequence of decimal digits back as a number. -/
def parseBits (cs : List Char) : Nat :=
  cs.foldl (fun a c => 10 * a + (c.toNat - 48)) 0

/-- Reads back a decimal integer with an optional leading minus sign. -/
def parseInt (s : String) : Int :=
  match s.data with
  | '-' :: cs => -((parseBits cs : Nat) : Int)
  | cs => ((parseBits cs : Nat) : Int)

/-- The number of seconds an outer version `snapshot-<seconds>` carries: what follows the
nine characters of `snapshot-`, read as a decimal integer. -/
def versionSeconds (version : String) : Int :=
  parseInt (String.mk (version.data.drop 9))

/-! ## The discovery session -/

/-- Modelled from the spec: a push message of the node-facing stream (section 6): resource
type, version, nonce and resources. The discovery server that writes it belongs to the xDS
server library, which is not part of the sources. -/
structure Push where
  typ : String
  version : String
  nonce : Nat
  resources : List Runtime
  deriving DecidableEq

/-- Modelled from the spec: a snapshot as the cache hands it to a session (sections 2
and 3): the resources of every type, and for each type the version string that type is
stamped with. -/
structure Delivery where
  snapshot : Snapshot
  typeVersion : String → String

/-- Modelled from the spec: the delivery of a snapshot built by `cache.NewSnapshot`, which
is given one version: a type it holds resources for is stamped with that version, any other
type with the empty version. -/
def Snapshot.delivery (s : Snapshot) : Delivery :=
  { snapshot := s
    typeVersion := fun typ => if typ ∈ s.Resources then s.Version else "" }

/-- Modelled from the spec: the record a `DiscoverySession` keeps per resource type
(section 3): subscribed resource names (empty for all), last sent version, last acked
version, pending nonce; and the revision queued behind the outstanding push of the type
(section 4.4), of which only the latest is kept. The session belongs to the xDS server
library, which is not part of the sources. -/
structure TypeRecord where
  names : List String
  lastSent : Option String
  lastAcked : Option String
  pendingNonce : Option Nat
  queued : Option (String × List Runtime)
  deriving DecidableEq

/-- Modelled from the spec: the states of a `DiscoverySession` (section 4.4). -/
inductive SessionState where
  | Fresh
  | Streaming
  | Closed
  deriving DecidableEq

/-- Modelled from the spec: a `DiscoverySession` (sections 3 and 4.4) of the xDS server
library, which is not part of the sources: the node, the state, the records of the subscribed
types, the next nonce (a nonce is unique per session and push), and beside them the pushes
written to the stream that the client has answered with neither an ack nor a nack. -/
structure DiscoverySession where
  nodeID : String
  state : SessionState
  records : List (String × TypeRecord)
  nextNonce : Nat
  outstanding : List Push
  deriving DecidableEq

/-- Modelled from the spec: what reaches a `DiscoverySession` (sections 4.4 and 6): a
subscribe request, arriving while the cache holds `current` for the node; a notification of
the cache with a new snapshot; an ack; a nack; the end of the stream. -/
inductive SessionEvent where
  | subscribe (typ : String) (names : List String) (current : Option Delivery)
  | notify (delivery : Delivery)
  | ack (typ : String) (version : String) (nonce : Nat)
  | nack (typ : String) (version : String) (nonce : Nat) (reason : String)
  | disconnect

/-- Modelled from the spec: an event answers a push when it is the ack or the nack of the
type and nonce of that push. -/
def SessionEvent.answers (e : SessionEvent) (p : Push) : Prop :=
  match e with
  | .ack typ _ nonce => p.typ = typ ∧ p.nonce = nonce
  | .nack typ _ nonce _ => p.typ = typ ∧ p.nonce = nonce
  | _ => False

/-- Modelled from the spec: the session created when a connection is established. -/
def DiscoverySession.fresh (nodeID : String) : DiscoverySession :=
  { nodeID := nodeID, state := .Fresh, records := [], nextNonce := 0, outstanding := [] }

/-- Modelled from the spec: "record subscription" for a type and a name filter. -/
def recordSubscription (typ : String) (names : List String) :
    List (String × TypeRecord) → List (String × TypeRecord)
  | [] =>
    [(typ, { names := names, lastSent := none, lastAcked := none, pendingNonce := none,
             queued := none })]
  | (t, r) :: rest =>
    if t = typ then (t, { r with names := names }) :: rest
    else (t, r) :: recordSubscription typ names rest

/-- Modelled from the spec: the resources of a type that a record subscribes to. -/
def subscribedResources (snapshot : Snapshot) (typ : String) (r : TypeRecord) : List Runtime :=
  (snapshot.GetResources typ).filter (fun x => r.names.isEmpty || r.names.contains x.Name)

/-- Modelled from the spec: the deltas of a notification (section 4.4): "for each subscribed
type whose version differs from last-sent version for that type, enqueue a push; a push for a
given type is never enqueued while a prior push for that same type is unacked". A revision
that meets an unanswered push of its type is queued behind it and replaces the revision
queued before ("only the latest matters"); a type already sent the delivered version has
nothing left to queue. The result is the records, the next nonce and the pushes written. -/
def offer (d : Delivery) :
    List (String × TypeRecord) → Nat → List (String × TypeRecord) × Nat × List Push
  | [], nonce => ([], nonce, [])
  | (typ, r) :: rest, nonce =>
    if r.lastSent = some (d.typeVersion typ) then
      let out := offer d rest nonce
      ((typ, { r with queued := none }) :: out.1, out.2.1, out.2.2)
    else if r.pendingNonce = none then
      let out := offer d rest (nonce + 1)
      ((typ, { r with lastSent := some (d.typeVersion typ), pendingNonce := some nonce,
                      queued := none }) :: out.1,
        out.2.1,
        { typ := typ, version := d.typeVersion typ, nonce := nonce,
          resources := subscribedResources d.snapshot typ r } :: out.2.2)
    else
      let out := offer d rest nonce
      let q := (d.typeVersion typ, subscribedResources d.snapshot typ r)
      ((typ, { r with queued := some q }) :: out.1, out.2.1, out.2.2)

/-- Modelled from the spec: a cache notification handled by a session that is not closed. -/
def DiscoverySession.onNotify (s : DiscoverySession) (d : Delivery) : DiscoverySession :=
  let out := offer d s.records s.nextNonce
  { s with
    state := if out.2.2.isEmpty then s.state else .Streaming
    records := out.1
    nextNonce := out.2.1
    outstanding := s.outstanding ++ out.2.2 }

/-- Modelled from the spec: an ack or a nack for a type (section 4.4). An answer whose nonce
is not the pending nonce of the type is stale and ignored. An ack sets the last acked
version (`acked` is `some version`), a nack leaves it unchanged (`acked` is `none`). The
answered push is no longer outstanding, so the revision queued behind it, if any, is pushed
at once with the next nonce; a rejected revision itself is not sent again. The result is the
records, the next nonce and the pushes written. -/
def release (typ : String) (nonce : Nat) (acked : Option String) :
    List (String × TypeRecord) → Nat → List (String × TypeRecord) × Nat × List Push
  | [], next => ([], next, [])
  | (t, r) :: rest, next =>
    if t = typ ∧ r.pendingNonce = some nonce then
      match r.queued with
      | none =>
        let out := release typ nonce acked rest next
        ((t, { r with lastAcked := if acked.isSome then acked else r.lastAcked,
                      pendingNonce := none }) :: out.1, out.2.1, out.2.2)
      | some q =>
        let out := release typ nonce acked rest (next + 1)
        ((t, { r with lastAcked := if acked.isSome then acked else r.lastAcked,
                      lastSent := some q.1, pendingNonce := some next,
                      queued := none }) :: out.1,
          out.2.1,
          { typ := t, version := q.1, nonce := next, resources := q.2 } :: out.2.2)
    else
      let out := release typ nonce acked rest next
      ((t, r) :: out.1, out.2.1, out.2.2)

/-- Modelled from the spec: the pushes still unanswered after an ack or nack of `nonce`
for `typ`. -/
def answerOutstanding (typ : String) (nonce : Nat) (pushes : List Push) : List Push :=
  pushes.filter (fun p => !(decide (p.typ = typ) && decide (p.nonce = nonce)))

/-- Modelled from the spec: an ack or a nack handled by a session that is not closed. -/
def DiscoverySession.onAnswer (s : DiscoverySession) (typ : String) (nonce : Nat)
    (acked : Option String) : DiscoverySession :=
  let out := release typ nonce acked s.records s.nextNonce
  { s with
    state := if out.2.2.isEmpty then s.state else .Streaming
    records := out.1
    nextNonce := out.2.1
    outstanding := answerOutstanding typ nonce s.outstanding ++ out.2.2 }

/-- Modelled from the spec: the transitions of a `DiscoverySession` (section 4.4). A closed
session is terminal. -/
def DiscoverySession.step (s : DiscoverySession) (e : SessionEvent) : DiscoverySession :=
  if s.state = .Closed then s
  else
    match e with
    | .subscribe typ names current =>
      let s := { s with records := recordSubscription typ names s.records }
      match current with
      | none => s
      | some d => s.onNotify d
    | .notify d => s.onNotify d
    | .ack typ version nonce => s.onAnswer typ nonce (some version)
    | .nack typ _ nonce _ => s.onAnswer typ nonce none
    | .disconnect => { s with state := .Closed }

/-- The session of a node after a sequence of events, starting from a fresh connection. -/
def DiscoverySession.run (nodeID : String) (events : List SessionEvent) : DiscoverySession :=
  events.foldl DiscoverySession.step (DiscoverySession.fresh nodeID)

/-- The pushes of a resource type that a session has outstanding. -/
def DiscoverySession.outstandingFor (s : DiscoverySession) (typ : String) : List Push :=
  s.outstanding.filter (fun p => decide (p.typ = typ))

/-- The last acked version a session records for a resource type. -/
def DiscoverySession.lastAckedFor (s : DiscoverySession) (typ : String) : Option String :=
  match s.records.find? (fun x => x.1 = typ) with
  | none => none
  | some x => x.2.lastAcked

/-- The snapshot of the first publish of `main`, made at second `1700000000`. -/
def mainSnapshot₀ : Snapshot :=
  { Version := "snapshot-1700000000"
    Resources := Finmap.insert resource.RuntimeType
      [{ Name := "runtime", Layer := { Fields := runtimeFields 8 2 mainShards₀ } }] ∅ }

/-- The snapshot of the second publish of `main`, made at second `1700000030`. -/
def mainSnapshot₁ : Snapshot :=
  { Version := "snapshot-1700000030"
    Resources := Finmap.insert resource.RuntimeType
      [{ Name := "runtime", Layer := { Fields := runtimeFields 12 2 mainShards₁ } }] ∅ }

/-- The snapshot of the third publish of `main`, made at second `1700000060`. -/
def mainSnapshot₂ : Snapshot :=
  { Version := "snapshot-1700000060"
    Resources := Finmap.insert resource.RuntimeType
      [{ Name := "runtime", Layer := { Fields := runtimeFields 12 2 mainShards₂ } }] ∅ }

/-- The bookkeeping that ties the unanswered pushes of a session to its records: every
unanswered push carries a nonce already handed out and is the pending push of the record of
its type, a type has one record, and no nonce is used twice. -/
structure SessionInv (s : DiscoverySession) : Prop where
  nonce_lt : ∀ p ∈ s.outstanding, p.nonce < s.nextNonce
  pending : ∀ p ∈ s.outstanding, ∃ r, (p.typ, r) ∈ s.records ∧ r.pendingNonce = some p.nonce
  types_nodup : (s.records.map Prod.fst).Nodup
  nonces_nodup : (s.outstanding.map Push.nonce).Nodup

/-! # Lemmas -/

/-! ## Runtime keys -/

theorem customerKey_data (c : String) :
    (customerKey c).data = "shuffle_sharding.customer.".data ++ c.data ++ ".shard_size".data := by
  simp [customerKey, String.data_append]

theorem customerKey_injective : Function.Injective customerKey := by
  intro a b h
  have h2 := congrArg String.data h
  rw [customerKey_data, customerKey_data] at h2
  exact String.ext (List.append_cancel_left (List.append_cancel_right h2))

theorem customerKey_ne_total_hosts (c : String) :
    customerKey c ≠ "shuffle_sharding.total_hosts" := by
  intro h
  have h2 := congrArg String.data h
  rw [customerKey_data] at h2
  have h3 := congrArg (List.take 18) h2
  simp at h3

theorem customerKey_ne_default_shard_size (c : String) :
    customerKey c ≠ "shuffle_sharding.default_shard_size" := by
  intro h
  have h2 := congrArg String.data h
  rw [customerKey_data] at h2
  have h3 := congrArg (List.take 18) h2
  simp at h3

/-! ## The loop over `customerShards` -/

theorem loop_mem (l : List (Sigma (fun _ : String => Int))) (m : GoMap Value) (k : String) :
    k ∈ l.foldl loopStep m ↔ k ∈ m ∨ ∃ e ∈ l, k = customerKey e.1 := by
  induction l generalizing m with
  | nil => simp
  | cons e l ih =>
    rw [List.foldl_cons, ih, Finmap.mem_insert]
    constructor
    · rintro ((h | h) | ⟨e', he', h⟩)
      · exact Or.inr ⟨e, List.mem_cons_self _ _, h⟩
      · exact Or.inl h
      · exact Or.inr ⟨e', List.mem_cons_of_mem _ he', h⟩
    · rintro (h | ⟨e', he', h⟩)
      · exact Or.inl (Or.inr h)
      · rcases List.mem_cons.1 he' with rfl | he'
        · exact Or.inl (Or.inl h)
        · exact Or.inr ⟨e', he', h⟩

theorem loop_lookup_other (l : List (Sigma (fun _ : String => Int))) (m : GoMap Value)
    (k : String) (hk : ∀ e ∈ l, k ≠ customerKey e.1) :
    (l.foldl loopStep m).lookup k = m.lookup k := by
  induction l generalizing m with
  | nil => rfl
  | cons e l ih =>
    rw [List.foldl_cons, ih _ (fun e' he' => hk e' (List.mem_cons_of_mem _ he'))]
    exact Finmap.lookup_insert_of_ne _ (hk e (List.mem_cons_self _ _))

theorem loop_lookup_customer (l : List (Sigma (fun _ : String => Int))) (hl : l.NodupKeys)
    (m : GoMap Value) (c : String) (s : Int) (hcs : (⟨c, s⟩ : Sigma (fun _ : String => Int)) ∈ l) :
    (l.foldl loopStep m).lookup (customerKey c) = some (numberValue s) := by
  induction l generalizing m with
  | nil => simp at hcs
  | cons e l ih =>
    rw [List.nodupKeys_cons] at hl
    rw [List.foldl_cons]
    rcases List.mem_cons.1 hcs with h | h
    · subst h
      rw [loop_lookup_other]
      · exact Finmap.lookup_insert _
      · intro e' he' heq
        have hc : c = e'.1 := customerKey_injective heq
        have hmem : e'.1 ∈ l.keys := List.mem_keys_of_mem he'
        exact hl.1 (by simpa [hc] using hmem)
    · exact ih hl.2 _ h

theorem keys_insert_card (m : GoMap Value) (k : String) (v : Value) (hk : k ∉ m) :
    (m.insert k v).keys.card = m.keys.card + 1 := by
  have h : (m.insert k v).keys = insert k m.keys := by
    ext a
    simp [Finmap.mem_keys, Finmap.mem_insert]
  rw [h, Finset.card_insert_of_not_mem (by simpa [Finmap.mem_keys] using hk)]

theorem loop_card (l : List (Sigma (fun _ : String => Int))) (hl : l.NodupKeys)
    (m : GoMap Value) (hm : ∀ e ∈ l, customerKey e.1 ∉ m) :
    (l.foldl loopStep m).keys.card = m.keys.card + l.length := by
  induction l generalizing m with
  | nil => simp
  | cons e l ih =>
    rw [List.nodupKeys_cons] at hl
    rw [List.foldl_cons, ih hl.2, keys_insert_card _ _ _ (hm e (List.mem_cons_self _ _)),
      List.length_cons]
    · omega
    · intro e' he' hmem
      rcases Finmap.mem_insert.1 hmem with h | h
      · have hc : e'.1 = e.1 := customerKey_injective h
        have hmem : e'.1 ∈ l.keys := List.mem_keys_of_mem he'
        exact hl.1 (by simpa [hc] using hmem)
      · exact hm e' (List.mem_cons_of_mem _ he') h

theorem loop_perm (l₁ l₂ : List (Sigma (fun _ : String => Int))) (h₁ : l₁.NodupKeys)
    (h₂ : l₂.NodupKeys) (hp : l₁.Perm l₂) (m : GoMap Value) :
    l₁.foldl loopStep m = l₂.foldl loopStep m := by
  apply Finmap.ext_lookup
  intro k
  by_cases hk : ∃ e ∈ l₁, k = customerKey e.1
  · obtain ⟨⟨c, s⟩, he, rfl⟩ := hk
    rw [loop_lookup_customer l₁ h₁ m c s he, loop_lookup_customer l₂ h₂ m c s (hp.subset he)]
  · have hk₁ : ∀ e ∈ l₁, k ≠ customerKey e.1 := fun e he h => hk ⟨e, he, h⟩
    have hk₂ : ∀ e ∈ l₂, k ≠ customerKey e.1 := fun e he h => hk ⟨e, hp.symm.subset he, h⟩
    rw [loop_lookup_other l₁ m k hk₁, loop_lookup_other l₂ m k hk₂]

/-! ## The whole of `SetRuntimeConfig` -/

theorem runtimeFields_eq (totalHosts defaultShardSize : Int)
    (customerShards : AList (fun _ : String => Int)) :
    runtimeFields totalHosts defaultShardSize customerShards =
      customerShards.entries.foldl loopStep
        ((Finmap.insert "shuffle_sharding.total_hosts" (numberValue totalHosts)
          (∅ : GoMap Value)).insert "shuffle_sharding.default_shard_size"
            (numberValue defaultShardSize)) := rfl

theorem buildSnapshot_eq (now totalHosts defaultShardSize : Int)
    (customerShards : AList (fun _ : String => Int)) :
    buildSnapshot now totalHosts defaultShardSize customerShards =
      .ok { Version := snapshotVersion now
            Resources := Finmap.insert resource.RuntimeType
              [{ Name := "runtime"
                 Layer := { Fields := runtimeFields totalHosts defaultShardSize customerShards } }]
              ∅ } := by
  have hknown : (!(resource.knownTypes.contains resource.RuntimeType)) = false := by decide
  unfold buildSnapshot cache.NewSnapshot
  simp only [List.find?, hknown]
  rfl

theorem setRuntimeConfig_eq (cp : ControlPlane) (now totalHosts defaultShardSize : Int)
    (customerShards : AList (fun _ : String => Int)) :
    cp.SetRuntimeConfig now totalHosts defaultShardSize customerShards =
      .ok { cache := cp.cache.insert cp.nodeID
              { Version := snapshotVersion now
                Resources := Finmap.insert resource.RuntimeType
                  [{ Name := "runtime"
                     Layer := { Fields :=
                       runtimeFields totalHosts defaultShardSize customerShards } }] ∅ }
            nodeID := cp.nodeID } := by
  unfold ControlPlane.SetRuntimeConfig
  rw [buildSnapshot_eq]
  rfl

/-! ## Integer to float conversion -/

theorem normShift_of_lt (fuel m : Nat) (h : m < 2 ^ 53) : normShift fuel m = 0 := by
  cases fuel with
  | zero => rfl
  | succ f => rw [normShift, if_pos h]

theorem roundToFloat64_of_lt (m : Nat) (h : m < 2 ^ 53) : roundToFloat64 m = m := by
  unfold roundToFloat64
  simp [normShift_of_lt 64 m h, Nat.mod_one]

theorem roundToFloat64_of_le (m : Nat) (h : m ≤ 2 ^ 53) : roundToFloat64 m = m := by
  rcases Nat.lt_or_eq_of_le h with h | h
  · exact roundToFloat64_of_lt m h
  · subst h; decide

theorem float64_exact (n : Int) (hlo : -(2 : Int) ^ 53 ≤ n) (hhi : n ≤ (2 : Int) ^ 53) :
    float64 n = n := by
  have hm : n.natAbs ≤ 2 ^ 53 := by omega
  unfold float64
  rw [roundToFloat64_of_le _ hm]
  split <;> omega

/-! ## Decimal formatting -/

theorem digitChar_toNat : ∀ d, d < 10 → (digitChar d).toNat = 48 + d := by decide

theorem digitChar_ne_minus : ∀ d, d < 10 → digitChar d ≠ '-' := by decide

theorem parseBits_append (cs : List Char) (c : Char) :
    parseBits (cs ++ [c]) = 10 * parseBits cs + (c.toNat - 48) := by
  simp [parseBits, List.foldl_append]

theorem parseBits_formatBits (u : Nat) : parseBits (formatBits u) = u := by
  induction u using Nat.strong_induction_on with
  | _ u ih =>
    rw [formatBits]
    split
    · rename_i h
      rw [parseBits_append, ih (u / 10) (by omega), digitChar_toNat _ (Nat.mod_lt _ (by norm_num))]
      omega
    · rename_i h
      simp [parseBits, digitChar_toNat u (by omega)]

theorem formatBits_head (u : Nat) : ∃ c cs, formatBits u = c :: cs ∧ c ≠ '-' := by
  induction u using Nat.strong_induction_on with
  | _ u ih =>
    rw [formatBits]
    split
    · rename_i h
      obtain ⟨c, cs, hc, hne⟩ := ih (u / 10) (by omega)
      exact ⟨c, cs ++ [digitChar (u % 10)], by rw [hc]; rfl, hne⟩
    · rename_i h
      exact ⟨digitChar u, [], rfl, digitChar_ne_minus u (by omega)⟩

theorem parseInt_formatInt (n : Int) : parseInt (formatInt n) = n := by
  unfold formatInt
  split
  · rename_i h
    simp only [parseInt, parseBits_formatBits]
    omega
  · rename_i h
    obtain ⟨c, cs, hc, hne⟩ := formatBits_head n.natAbs
    have hp := parseBits_formatBits n.natAbs
    rw [hc] at hp
    unfold parseInt
    simp only [hc]
    split
    · rename_i heq
      simp only [List.cons.injEq] at heq
      exact absurd heq.1 hne
    · rename_i heq
      rw [hp]; omega

theorem versionSeconds_snapshotVersion (now : Int) :
    versionSeconds (snapshotVersion now) = now := by
  have h : (snapshotVersion now).data = "snapshot-".data ++ (formatInt now).data := by
    simp [snapshotVersion, String.data_append]
  unfold versionSeconds
  rw [h]
  have h9 : List.drop 9 ("snapshot-".data ++ (formatInt now).data) = (formatInt now).data := by
    simp
  rw [h9]
  exact parseInt_formatInt now

theorem snapshotVersion_injective : Function.Injective snapshotVersion := by
  intro a b h
  have := congrArg versionSeconds h
  rwa [versionSeconds_snapshotVersion, versionSeconds_snapshotVersion] at this

/-! ## The field map and the publish as a whole -/

theorem runtimeFields_card (totalHosts defaultShardSize : Int)
    (customerShards : AList (fun _ : String => Int)) :
    (runtimeFields totalHosts defaultShardSize customerShards).keys.card =
      2 + customerShards.entries.length := by
  rw [runtimeFields_eq, loop_card _ customerShards.nodupKeys]
  · have h₁ : "shuffle_sharding.total_hosts" ∉ (∅ : GoMap Value) := Finmap.not_mem_empty
    have h₂ : "shuffle_sharding.default_shard_size" ∉
        Finmap.insert "shuffle_sharding.total_hosts" (numberValue totalHosts)
          (∅ : GoMap Value) := by
      intro h
      rcases Finmap.mem_insert.1 h with h | h
      · exact absurd h (by decide)
      · exact Finmap.not_mem_empty h
    rw [keys_insert_card _ _ _ h₂, keys_insert_card _ _ _ h₁, Finmap.keys_empty,
      Finset.card_empty]
  · intro e _ hmem
    rcases Finmap.mem_insert.1 hmem with h | h
    · exact customerKey_ne_default_shard_size _ h
    · rcases Finmap.mem_insert.1 h with h | h
      · exact customerKey_ne_total_hosts _ h
      · exact Finmap.not_mem_empty h

theorem runtimeFields_total_hosts (totalHosts defaultShardSize : Int)
    (customerShards : AList (fun _ : String => Int)) :
    (runtimeFields totalHosts defaultShardSize customerShards).lookup
      "shuffle_sharding.total_hosts" = some (numberValue totalHosts) := by
  rw [runtimeFields_eq, loop_lookup_other _ _ _ (fun e _ h => customerKey_ne_total_hosts _ h.symm),
    Finmap.lookup_insert_of_ne _ (by decide)]
  exact Finmap.lookup_insert _

theorem runtimeFields_default_shard_size (totalHosts defaultShardSize : Int)
    (customerShards : AList (fun _ : String => Int)) :
    (runtimeFields totalHosts defaultShardSize customerShards).lookup
      "shuffle_sharding.default_shard_size" = some (numberValue defaultShardSize) := by
  rw [runtimeFields_eq,
    loop_lookup_other _ _ _ (fun e _ h => customerKey_ne_default_shard_size _ h.symm)]
  exact Finmap.lookup_insert _

theorem runtimeFields_customer (totalHosts defaultShardSize : Int)
    (customerShards : AList (fun _ : String => Int)) (c : String) (s : Int)
    (hcs : customerShards.lookup c = some s) :
    (runtimeFields totalHosts defaultShardSize customerShards).lookup (customerKey c) =
      some (numberValue s) := by
  rw [runtimeFields_eq]
  exact loop_lookup_customer _ customerShards.nodupKeys _ c s (AList.mem_lookup_iff.1 hcs)

theorem runtimeFields_mem (totalHosts defaultShardSize : Int)
    (customerShards : AList (fun _ : String => Int)) (k : String) :
    k ∈ runtimeFields totalHosts defaultShardSize customerShards ↔
      k = "shuffle_sharding.total_hosts" ∨ k = "shuffle_sharding.default_shard_size" ∨
        ∃ c, c ∈ customerShards ∧ k = customerKey c := by
  rw [runtimeFields_eq, loop_mem, Finmap.mem_insert, Finmap.mem_insert]
  constructor
  · rintro ((h | h | h) | ⟨e, he, h⟩)
    · exact Or.inr (Or.inl h)
    · exact Or.inl h
    · exact absurd h Finmap.not_mem_empty
    · exact Or.inr (Or.inr ⟨e.1, AList.mem_keys.2 (List.mem_keys_of_mem he), h⟩)
  · rintro (h | h | ⟨c, hc, h⟩)
    · exact Or.inl (Or.inr (Or.inl h))
    · exact Or.inl (Or.inl h)
    · obtain ⟨s, hs⟩ := List.exists_of_mem_keys (AList.mem_keys.1 hc)
      exact Or.inr ⟨⟨c, s⟩, hs, h⟩

theorem runtimeFields_perm (totalHosts defaultShardSize : Int)
    (cs₁ cs₂ : AList (fun _ : String => Int)) (h : cs₁.entries.Perm cs₂.entries) :
    runtimeFields totalHosts defaultShardSize cs₁ =
      runtimeFields totalHosts defaultShardSize cs₂ := by
  rw [runtimeFields_eq, runtimeFields_eq]
  exact loop_perm _ _ cs₁.nodupKeys cs₂.nodupKeys h _

theorem getResources_runtime (version : String) (rs : List Runtime) :
    Snapshot.GetResources
      { Version := version, Resources := Finmap.insert resource.RuntimeType rs ∅ }
      resource.RuntimeType = rs := by
  simp [Snapshot.GetResources, Finmap.lookup_insert]

theorem getResources_other (version : String) (rs : List Runtime) (typ : String)
    (h : typ ≠ resource.RuntimeType) :
    Snapshot.GetResources
      { Version := version, Resources := Finmap.insert resource.RuntimeType rs ∅ } typ = [] := by
  simp [Snapshot.GetResources, Finmap.lookup_insert_of_ne _ h, Finmap.lookup_empty]

theorem publishVersions_eq (cp : ControlPlane) (calls : List Call) :
    publishVersions cp calls = calls.map (fun c => (c.now, snapshotVersion c.now)) := by
  induction calls generalizing cp with
  | nil => rfl
  | cons c cs ih =>
    rw [publishVersions, setRuntimeConfig_eq]
    simp only [Finmap.lookup_insert, List.map_cons]
    rw [ih]

theorem publishIgnoringError_eq (cp : ControlPlane) (now totalHosts defaultShardSize : Int)
    (customerShards : AList (fun _ : String => Int)) :
    publishIgnoringError cp now totalHosts defaultShardSize customerShards =
      { cache := cp.cache.insert cp.nodeID
          { Version := snapshotVersion now
            Resources := Finmap.insert resource.RuntimeType
              [{ Name := "runtime"
                 Layer := { Fields :=
                   runtimeFields totalHosts defaultShardSize customerShards } }] ∅ }
        nodeID := cp.nodeID } := by
  unfold publishIgnoringError
  rw [setRuntimeConfig_eq]

/-! ## The discovery session -/

theorem offer_types (d : Delivery) (rs : List (String × TypeRecord)) (n : Nat) :
    (offer d rs n).1.map Prod.fst = rs.map Prod.fst := by
  induction rs generalizing n with
  | nil => rfl
  | cons x rs ih =>
    obtain ⟨t, r⟩ := x
    unfold offer
    split
    · simp [ih]
    · split <;> simp [ih]

theorem offer_nonce_le (d : Delivery) (rs : List (String × TypeRecord)) (n : Nat) :
    n ≤ (offer d rs n).2.1 := by
  induction rs generalizing n with
  | nil => exact Nat.le_refl _
  | cons x rs ih =>
    obtain ⟨t, r⟩ := x
    unfold offer
    split
    · exact ih n
    · split
      · exact Nat.le_trans (Nat.le_succ n) (ih (n + 1))
      · exact ih n

theorem offer_pushes_nonce (d : Delivery) (rs : List (String × TypeRecord)) (n : Nat) :
    ∀ p ∈ (offer d rs n).2.2, n ≤ p.nonce ∧ p.nonce < (offer d rs n).2.1 := by
  induction rs generalizing n with
  | nil => intro p hp; simp [offer] at hp
  | cons x rs ih =>
    obtain ⟨t, r⟩ := x
    unfold offer
    split
    · exact ih n
    · split
      · intro p hp
        rcases List.mem_cons.1 hp with rfl | hp
        · exact ⟨Nat.le_refl _, offer_nonce_le d rs (n + 1)⟩
        · have := ih (n + 1) p hp
          exact ⟨by omega, this.2⟩
      · exact ih n

theorem offer_pushes_nodup (d : Delivery) (rs : List (String × TypeRecord)) (n : Nat) :
    ((offer d rs n).2.2.map Push.nonce).Nodup := by
  induction rs generalizing n with
  | nil => simp [offer]
  | cons x rs ih =>
    obtain ⟨t, r⟩ := x
    unfold offer
    split
    · exact ih n
    · split
      · simp only [List.map_cons, List.nodup_cons]
        refine ⟨?_, ih (n + 1)⟩
        intro hmem
        obtain ⟨p, hp, hpn⟩ := List.mem_map.1 hmem
        have := (offer_pushes_nonce d rs (n + 1) p hp).1
        omega
      · exact ih n

theorem offer_pushes_pending (d : Delivery) (rs : List (String × TypeRecord)) (n : Nat) :
    ∀ p ∈ (offer d rs n).2.2,
      ∃ r, (p.typ, r) ∈ (offer d rs n).1 ∧ r.pendingNonce = some p.nonce := by
  induction rs generalizing n with
  | nil => intro p hp; simp [offer] at hp
  | cons x rs ih =>
    obtain ⟨t, r⟩ := x
    unfold offer
    split
    · intro p hp
      obtain ⟨r', hr', hpn⟩ := ih n p hp
      exact ⟨r', List.mem_cons_of_mem _ hr', hpn⟩
    · split
      · intro p hp
        rcases List.mem_cons.1 hp with rfl | hp
        · exact ⟨_, List.mem_cons_self _ _, rfl⟩
        · obtain ⟨r', hr', hpn⟩ := ih (n + 1) p hp
          exact ⟨r', List.mem_cons_of_mem _ hr', hpn⟩
      · intro p hp
        obtain ⟨r', hr', hpn⟩ := ih n p hp
        exact ⟨r', List.mem_cons_of_mem _ hr', hpn⟩

theorem offer_keeps_pending (d : Delivery) (rs : List (String × TypeRecord)) (n : Nat)
    (t : String) (r : TypeRecord) (m : Nat) (hmem : (t, r) ∈ rs)
    (hpending : r.pendingNonce = some m) :
    ∃ r', (t, r') ∈ (offer d rs n).1 ∧ r'.pendingNonce = some m := by
  induction rs generalizing n with
  | nil => simp at hmem
  | cons x rs ih =>
    obtain ⟨t', r'⟩ := x
    unfold offer
    rcases List.mem_cons.1 hmem with h | h
    · cases h
      split
      · exact ⟨_, List.mem_cons_self _ _, hpending⟩
      · rw [if_neg (by simp [hpending])]
        exact ⟨_, List.mem_cons_self _ _, hpending⟩
    · split
      · obtain ⟨r'', hr'', hp⟩ := ih n h
        exact ⟨r'', List.mem_cons_of_mem _ hr'', hp⟩
      · split
        · obtain ⟨r'', hr'', hp⟩ := ih (n + 1) h
          exact ⟨r'', List.mem_cons_of_mem _ hr'', hp⟩
        · obtain ⟨r'', hr'', hp⟩ := ih n h
          exact ⟨r'', List.mem_cons_of_mem _ hr'', hp⟩

theorem release_types (typ : String) (nonce : Nat) (acked : Option String)
    (rs : List (String × TypeRecord)) (n : Nat) :
    (release typ nonce acked rs n).1.map Prod.fst = rs.map Prod.fst := by
  induction rs generalizing n with
  | nil => rfl
  | cons x rs ih =>
    obtain ⟨t, r⟩ := x
    unfold release
    split
    · split <;> simp [ih]
    · simp [ih]

theorem release_nonce_le (typ : String) (nonce : Nat) (acked : Option String)
    (rs : List (String × TypeRecord)) (n : Nat) :
    n ≤ (release typ nonce acked rs n).2.1 := by
  induction rs generalizing n with
  | nil => exact Nat.le_refl _
  | cons x rs ih =>
    obtain ⟨t, r⟩ := x
    unfold release
    split
    · split
      · exact ih n
      · exact Nat.le_trans (Nat.le_succ n) (ih (n + 1))
    · exact ih n

theorem release_pushes_nonce (typ : String) (nonce : Nat) (acked : Option String)
    (rs : List (String × TypeRecord)) (n : Nat) :
    ∀ p ∈ (release typ nonce acked rs n).2.2,
      n ≤ p.nonce ∧ p.nonce < (release typ nonce acked rs n).2.1 := by
  induction rs generalizing n with
  | nil => intro p hp; simp [release] at hp
  | cons x rs ih =>
    obtain ⟨t, r⟩ := x
    unfold release
    split
    · split
      · exact ih n
      · intro p hp
        rcases List.mem_cons.1 hp with rfl | hp
        · exact ⟨Nat.le_refl _, release_nonce_le typ nonce acked rs (n + 1)⟩
        · have := ih (n + 1) p hp
          exact ⟨by omega, this.2⟩
    · exact ih n

theorem release_pushes_nodup (typ : String) (nonce : Nat) (acked : Option String)
    (rs : List (String × TypeRecord)) (n : Nat) :
    ((release typ nonce acked rs n).2.2.map Push.nonce).Nodup := by
  induction rs generalizing n with
  | nil => simp [release]
  | cons x rs ih =>
    obtain ⟨t, r⟩ := x
    unfold release
    split
    · split
      · exact ih n
      · simp only [List.map_cons, List.nodup_cons]
        refine ⟨?_, ih (n + 1)⟩
        intro hmem
        obtain ⟨p, hp, hpn⟩ := List.mem_map.1 hmem
        have := (release_pushes_nonce typ nonce acked rs (n + 1) p hp).1
        omega
    · exact ih n

theorem release_pushes_pending (typ : String) (nonce : Nat) (acked : Option String)
    (rs : List (String × TypeRecord)) (n : Nat) :
    ∀ p ∈ (release typ nonce acked rs n).2.2,
      ∃ r, (p.typ, r) ∈ (release typ nonce acked rs n).1 ∧ r.pendingNonce = some p.nonce := by
  induction rs generalizing n with
  | nil => intro p hp; simp [release] at hp
  | cons x rs ih =>
    obtain ⟨t, r⟩ := x
    unfold release
    split
    · split
      · intro p hp
        obtain ⟨r', hr', hpn⟩ := ih n p hp
        exact ⟨r', List.mem_cons_of_mem _ hr', hpn⟩
      · intro p hp
        rcases List.mem_cons.1 hp with rfl | hp
        · exact ⟨_, List.mem_cons_self _ _, rfl⟩
        · obtain ⟨r', hr', hpn⟩ := ih (n + 1) p hp
          exact ⟨r', List.mem_cons_of_mem _ hr', hpn⟩
    · intro p hp
      obtain ⟨r', hr', hpn⟩ := ih n p hp
      exact ⟨r', List.mem_cons_of_mem _ hr', hpn⟩

theorem release_keeps (typ : String) (nonce : Nat) (acked : Option String)
    (rs : List (String × TypeRecord)) (n : Nat) (t : String) (r : TypeRecord)
    (hmem : (t, r) ∈ rs) (hother : ¬ (t = typ ∧ r.pendingNonce = some nonce)) :
    (t, r) ∈ (release typ nonce acked rs n).1 := by
  induction rs generalizing n with
  | nil => simp at hmem
  | cons x rs ih =>
    obtain ⟨t', r'⟩ := x
    unfold release
    rcases List.mem_cons.1 hmem with h | h
    · cases h
      rw [if_neg hother]
      exact List.mem_cons_self _ _
    · split
      · split
        · exact List.mem_cons_of_mem _ (ih n h)
        · exact List.mem_cons_of_mem _ (ih (n + 1) h)
      · exact List.mem_cons_of_mem _ (ih n h)

theorem recordSubscription_types (typ : String) (names : List String)
    (rs : List (String × TypeRecord)) (t : String) :
    t ∈ (recordSubscription typ names rs).map Prod.fst ↔ t = typ ∨ t ∈ rs.map Prod.fst := by
  induction rs with
  | nil => simp [recordSubscription]
  | cons x rs ih =>
    obtain ⟨t', r'⟩ := x
    unfold recordSubscription
    split
    · rename_i h
      subst h
      simp
    · simp only [List.map_cons, List.mem_cons, ih]
      tauto

theorem recordSubscription_nodup (typ : String) (names : List String)
    (rs : List (String × TypeRecord)) (h : (rs.map Prod.fst).Nodup) :
    ((recordSubscription typ names rs).map Prod.fst).Nodup := by
  induction rs with
  | nil => simp [recordSubscription]
  | cons x rs ih =>
    obtain ⟨t', r'⟩ := x
    simp only [List.map_cons, List.nodup_cons] at h
    unfold recordSubscription
    split
    · simpa using h
    · rename_i hne
      simp only [List.map_cons, List.nodup_cons]
      refine ⟨?_, ih h.2⟩
      intro hmem
      rcases (recordSubscription_types typ names rs t').1 hmem with h' | h'
      · exact hne h'
      · exact h.1 h'

theorem recordSubscription_keeps_pending (typ : String) (names : List String)
    (rs : List (String × TypeRecord)) (t : String) (r : TypeRecord) (hmem : (t, r) ∈ rs) :
    ∃ r', (t, r') ∈ recordSubscription typ names rs ∧ r'.pendingNonce = r.pendingNonce := by
  induction rs with
  | nil => simp at hmem
  | cons x rs ih =>
    obtain ⟨t', r'⟩ := x
    unfold recordSubscription
    rcases List.mem_cons.1 hmem with h | h
    · cases h
      split
      · exact ⟨_, List.mem_cons_self _ _, rfl⟩
      · exact ⟨_, List.mem_cons_self _ _, rfl⟩
    · split
      · exact ⟨r, List.mem_cons_of_mem _ h, rfl⟩
      · obtain ⟨r'', hr'', hp⟩ := ih h
        exact ⟨r'', List.mem_cons_of_mem _ hr'', hp⟩

theorem sessionInv_fresh (nodeID : String) : SessionInv (DiscoverySession.fresh nodeID) :=
  ⟨by simp [DiscoverySession.fresh], by simp [DiscoverySession.fresh],
    by simp [DiscoverySession.fresh], by simp [DiscoverySession.fresh]⟩

theorem sessionInv_onNotify (s : DiscoverySession) (d : Delivery) (h : SessionInv s) :
    SessionInv (s.onNotify d) := by
  refine ⟨?_, ?_, ?_, ?_⟩
  · intro p hp
    rcases List.mem_append.1 hp with hp | hp
    · exact Nat.lt_of_lt_of_le (h.nonce_lt p hp) (offer_nonce_le d s.records s.nextNonce)
    · exact (offer_pushes_nonce d s.records s.nextNonce p hp).2
  · intro p hp
    rcases List.mem_append.1 hp with hp | hp
    · obtain ⟨r, hr, hpn⟩ := h.pending p hp
      exact offer_keeps_pending d s.records s.nextNonce _ r _ hr hpn
    · exact offer_pushes_pending d s.records s.nextNonce p hp
  · show ((offer d s.records s.nextNonce).1.map Prod.fst).Nodup
    rw [offer_types]
    exact h.types_nodup
  · show ((s.outstanding ++ (offer d s.records s.nextNonce).2.2).map Push.nonce).Nodup
    rw [List.map_append, List.nodup_append]
    refine ⟨h.nonces_nodup, offer_pushes_nodup d s.records s.nextNonce, ?_⟩
    intro a ha hb
    obtain ⟨p, hp, rfl⟩ := List.mem_map.1 ha
    obtain ⟨q, hq, hqp⟩ := List.mem_map.1 hb
    have h₁ := h.nonce_lt p hp
    have h₂ := (offer_pushes_nonce d s.records s.nextNonce q hq).1
    omega

theorem sessionInv_subscribe (s : DiscoverySession) (typ : String) (names : List String)
    (h : SessionInv s) :
    SessionInv { s with records := recordSubscription typ names s.records } := by
  refine ⟨h.nonce_lt, ?_, recordSubscription_nodup typ names s.records h.types_nodup,
    h.nonces_nodup⟩
  intro p hp
  obtain ⟨r, hr, hpn⟩ := h.pending p hp
  obtain ⟨r', hr', hpn'⟩ := recordSubscription_keeps_pending typ names s.records _ r hr
  exact ⟨r', hr', hpn'.trans hpn⟩

theorem sessionInv_onAnswer (s : DiscoverySession) (typ : String) (nonce : Nat)
    (acked : Option String) (h : SessionInv s) : SessionInv (s.onAnswer typ nonce acked) := by
  refine ⟨?_, ?_, ?_, ?_⟩
  · intro p hp
    rcases List.mem_append.1 hp with hp | hp
    · exact Nat.lt_of_lt_of_le (h.nonce_lt p (List.mem_filter.1 hp).1)
        (release_nonce_le typ nonce acked s.records s.nextNonce)
    · exact (release_pushes_nonce typ nonce acked s.records s.nextNonce p hp).2
  · intro p hp
    rcases List.mem_append.1 hp with hp | hp
    · obtain ⟨hp, hkeep⟩ := List.mem_filter.1 hp
      obtain ⟨r, hr, hpn⟩ := h.pending p hp
      refine ⟨r, release_keeps typ nonce acked s.records s.nextNonce _ r hr ?_, hpn⟩
      rintro ⟨ht, hn⟩
      rw [hpn] at hn
      simp [ht, Option.some.inj hn] at hkeep
    · exact release_pushes_pending typ nonce acked s.records s.nextNonce p hp
  · show ((release typ nonce acked s.records s.nextNonce).1.map Prod.fst).Nodup
    rw [release_types]
    exact h.types_nodup
  · show ((answerOutstanding typ nonce s.outstanding ++
      (release typ nonce acked s.records s.nextNonce).2.2).map Push.nonce).Nodup
    rw [List.map_append, List.nodup_append]
    refine ⟨h.nonces_nodup.sublist ((List.filter_sublist _).map _),
      release_pushes_nodup typ nonce acked s.records s.nextNonce, ?_⟩
    intro a ha hb
    obtain ⟨p, hp, rfl⟩ := List.mem_map.1 ha
    obtain ⟨q, hq, hqp⟩ := List.mem_map.1 hb
    have h₁ := h.nonce_lt p (List.mem_filter.1 hp).1
    have h₂ := (release_pushes_nonce typ nonce acked s.records s.nextNonce q hq).1
    omega

theorem sessionInv_step (s : DiscoverySession) (e : SessionEvent) (h : SessionInv s) :
    SessionInv (s.step e) := by
  unfold DiscoverySession.step
  split
  · exact h
  · cases e with
    | subscribe typ names current =>
      cases current with
      | none => exact sessionInv_subscribe s typ names h
      | some d => exact sessionInv_onNotify _ d (sessionInv_subscribe s typ names h)
    | notify d => exact sessionInv_onNotify s d h
    | ack typ version nonce => exact sessionInv_onAnswer s typ nonce (some version) h
    | nack typ version nonce reason => exact sessionInv_onAnswer s typ nonce none h
    | disconnect => exact ⟨h.nonce_lt, h.pending, h.types_nodup, h.nonces_nodup⟩

theorem sessionInv_foldl (events : List SessionEvent) (s : DiscoverySession) (h : SessionInv s) :
    SessionInv (events.foldl DiscoverySession.step s) := by
  induction events generalizing s with
  | nil => exact h
  | cons e es ih => exact ih _ (sessionInv_step s e h)

theorem sessionInv_same_type (s : DiscoverySession) (h : SessionInv s) (p q : Push)
    (hp : p ∈ s.outstanding) (hq : q ∈ s.outstanding) (htyp : p.typ = q.typ) :
    p.nonce = q.nonce := by
  obtain ⟨r, hr, hpn⟩ := h.pending p hp
  obtain ⟨r', hr', hqn⟩ := h.pending q hq
  rw [htyp] at hr
  have hrr : r = r' := by
    have hinj := List.inj_on_of_nodup_map h.types_nodup hr hr' rfl
    exact (Prod.mk.inj hinj).2
  subst hrr
  rw [hpn] at hqn
  exact Option.some.inj hqn

theorem length_le_one_of_same_nonce (l : List Push) (hnodup : (l.map Push.nonce).Nodup)
    (hsame : ∀ p ∈ l, ∀ q ∈ l, p.nonce = q.nonce) : l.length ≤ 1 := by
  match l, hnodup, hsame with
  | [], _, _ => simp
  | [_], _, _ => simp
  | p :: q :: rest, hnodup, hsame =>
    exfalso
    simp only [List.map_cons, List.nodup_cons, List.mem_cons] at hnodup
    exact hnodup.1 (Or.inl (hsame p (List.mem_cons_self _ _) q
      (List.mem_cons_of_mem _ (List.mem_cons_self _ _))))

theorem sessionInv_outstandingFor (s : DiscoverySession) (h : SessionInv s) (typ : String) :
    (s.outstandingFor typ).length ≤ 1 := by
  apply length_le_one_of_same_nonce
  · exact h.nonces_nodup.sublist ((List.filter_sublist _).map _)
  · intro p hp q hq
    obtain ⟨hp, hpt⟩ := List.mem_filter.1 hp
    obtain ⟨hq, hqt⟩ := List.mem_filter.1 hq
    exact sessionInv_same_type s h p q hp hq
      ((of_decide_eq_true hpt).trans (of_decide_eq_true hqt).symm)

theorem onAnswer_removed (s : DiscoverySession) (typ : String) (nonce : Nat)
    (acked : Option String) (q : Push) (hq : q ∈ s.outstanding)
    (hgone : q ∉ (s.onAnswer typ nonce acked).outstanding) : q.typ = typ ∧ q.nonce = nonce := by
  by_contra hne
  apply hgone
  apply List.mem_append_left
  apply List.mem_filter.2
  refine ⟨hq, ?_⟩
  simp only [Bool.not_eq_true', Bool.and_eq_false_iff, decide_eq_false_iff_not]
  tauto

theorem step_removed (s : DiscoverySession) (e : SessionEvent) (q : Push)
    (hq : q ∈ s.outstanding) (hgone : q ∉ (s.step e).outstanding) : e.answers q := by
  unfold DiscoverySession.step at hgone
  split at hgone
  · exact absurd hq hgone
  · cases e with
    | subscribe typ names current =>
      cases current with
      | none => exact absurd hq hgone
      | some d => exact absurd (List.mem_append_left _ hq) hgone
    | notify d => exact absurd (List.mem_append_left _ hq) hgone
    | ack typ version nonce => exact onAnswer_removed s typ nonce (some version) q hq hgone
    | nack typ version nonce reason => exact onAnswer_removed s typ nonce none q hq hgone
    | disconnect => exact absurd hq hgone

/-! ## Properties of a publish -/

/-- C9: runtime keys never collide. The customer key is injective in the customer name, no
customer key is a global key, so the field map has exactly `2 + len(customerShards)` entries
and each global and each customer entry keeps the value written for it. -/
theorem runtime_keys_never_collide (totalHosts defaultShardSize : Int)
    (customerShards : AList (fun _ : String => Int)) :
    Function.Injective customerKey ∧
    (∀ c, customerKey c ≠ "shuffle_sharding.total_hosts" ∧
      customerKey c ≠ "shuffle_sharding.default_shard_size") ∧
    (runtimeFields totalHosts defaultShardSize customerShards).keys.card =
      2 + customerShards.entries.length ∧
    (runtimeFields totalHosts defaultShardSize customerShards).lookup
      "shuffle_sharding.total_hosts" = some (numberValue totalHosts) ∧
    (runtimeFields totalHosts defaultShardSize customerShards).lookup
      "shuffle_sharding.default_shard_size" = some (numberValue defaultShardSize) ∧
    (∀ c s, customerShards.lookup c = some s →
      (runtimeFields totalHosts defaultShardSize customerShards).lookup (customerKey c) =
        some (numberValue s)) :=
  ⟨customerKey_injective,
    fun c => ⟨customerKey_ne_total_hosts c, customerKey_ne_default_shard_size c⟩,
    runtimeFields_card _ _ _, runtimeFields_total_hosts _ _ _,
    runtimeFields_default_shard_size _ _ _, runtimeFields_customer _ _ _⟩

/-- C1, as stated, fails: a count above `2^53` is not read back. Publishing
`totalHosts = 2^53 + 1 = 9007199254740993` (a Go `int`) on a fresh control plane leaves
`shuffle_sharding.total_hosts -> 9007199254740992` in the runtime layer of the current
snapshot, not `totalHosts`. -/
theorem round_trip_loses_a_large_count :
    isGoInt 9007199254740993 ∧
    ∃ cp snapshot fields,
      NewControlPlane.SetRuntimeConfig 1700000000 9007199254740993 2 ∅ = .ok cp ∧
      cp.cache.lookup cp.nodeID = some snapshot ∧
      snapshot.GetResources resource.RuntimeType =
        [{ Name := "runtime", Layer := { Fields := fields } }] ∧
      fields.lookup "shuffle_sharding.total_hosts" =
        some (Value.NumberValue 9007199254740992) ∧
      fields.lookup "shuffle_sharding.total_hosts" ≠
        some (Value.NumberValue 9007199254740993) := by
  refine ⟨by decide, _, _, _, setRuntimeConfig_eq _ _ _ _ _, Finmap.lookup_insert _,
    getResources_runtime _ _, ?_, ?_⟩
  · rw [runtimeFields_total_hosts]; decide
  · rw [runtimeFields_total_hosts]; decide

/-- C1, amended: round trip of a publish. For every control plane, clock reading,
`totalHosts`, `defaultShardSize` and `customerShards`, `SetRuntimeConfig` succeeds and the
current snapshot of the node then holds one runtime layer whose fields are exactly
`shuffle_sharding.total_hosts -> float64(totalHosts)`,
`shuffle_sharding.default_shard_size -> float64(defaultShardSize)` and, for each customer `c`
of `customerShards`, `shuffle_sharding.customer.<c>.shard_size -> float64(customerShards[c])`,
and no other field; `float64(n)` is `n` itself whenever `-2^53 ≤ n ≤ 2^53`. -/
theorem setRuntimeConfig_round_trip (cp : ControlPlane) (now totalHosts defaultShardSize : Int)
    (customerShards : AList (fun _ : String => Int)) :
    ∃ cp' snapshot fields,
      cp.SetRuntimeConfig now totalHosts defaultShardSize customerShards = .ok cp' ∧
      cp'.cache.lookup cp'.nodeID = some snapshot ∧
      snapshot.GetResources resource.RuntimeType =
        [{ Name := "runtime", Layer := { Fields := fields } }] ∧
      fields.lookup "shuffle_sharding.total_hosts" =
        some (Value.NumberValue (float64 totalHosts)) ∧
      fields.lookup "shuffle_sharding.default_shard_size" =
        some (Value.NumberValue (float64 defaultShardSize)) ∧
      (∀ c s, customerShards.lookup c = some s →
        fields.lookup (customerKey c) = some (Value.NumberValue (float64 s))) ∧
      (∀ k, k ∈ fields →
        k = "shuffle_sharding.total_hosts" ∨ k = "shuffle_sharding.default_shard_size" ∨
          ∃ c, c ∈ customerShards ∧ k = customerKey c) ∧
      (∀ n : Int, -(2 : Int) ^ 53 ≤ n → n ≤ (2 : Int) ^ 53 → float64 n = n) :=
  ⟨_, _, _, setRuntimeConfig_eq _ _ _ _ _, Finmap.lookup_insert _, getResources_runtime _ _,
    runtimeFields_total_hosts _ _ _, runtimeFields_default_shard_size _ _ _,
    runtimeFields_customer _ _ _, fun k hk => (runtimeFields_mem _ _ _ k).1 hk, float64_exact⟩

/-- The first publish of `main`, `(8, 2, {customer-A:2, customer-B:2, customer-C:2})`, is
read back as exactly its five entries. -/
theorem setRuntimeConfig_round_trip_witness :
    (∃ cp' snapshot fields,
      NewControlPlane.SetRuntimeConfig 1700000000 8 2 mainShards₀ = .ok cp' ∧
      cp'.cache.lookup cp'.nodeID = some snapshot ∧
      snapshot.GetResources resource.RuntimeType =
        [{ Name := "runtime", Layer := { Fields := fields } }] ∧
      fields.lookup "shuffle_sharding.total_hosts" = some (Value.NumberValue (float64 8)) ∧
      fields.lookup "shuffle_sharding.default_shard_size" =
        some (Value.NumberValue (float64 2)) ∧
      (∀ c s, mainShards₀.lookup c = some s →
        fields.lookup (customerKey c) = some (Value.NumberValue (float64 s))) ∧
      (∀ k, k ∈ fields →
        k = "shuffle_sharding.total_hosts" ∨ k = "shuffle_sharding.default_shard_size" ∨
          ∃ c, c ∈ mainShards₀ ∧ k = customerKey c) ∧
      (∀ n : Int, -(2 : Int) ^ 53 ≤ n → n ≤ (2 : Int) ^ 53 → float64 n = n)) ∧
    runtimeFields 8 2 mainShards₀ = List.toFinmap
      [⟨"shuffle_sharding.total_hosts", Value.NumberValue 8⟩,
       ⟨"shuffle_sharding.default_shard_size", Value.NumberValue 2⟩,
       ⟨"shuffle_sharding.customer.customer-A.shard_size", Value.NumberValue 2⟩,
       ⟨"shuffle_sharding.customer.customer-B.shard_size", Value.NumberValue 2⟩,
       ⟨"shuffle_sharding.customer.customer-C.shard_size", Value.NumberValue 2⟩] :=
  ⟨setRuntimeConfig_round_trip NewControlPlane 1700000000 8 2 mainShards₀, by decide⟩

/-- C3, as stated, fails: a negative count is accepted. `SetRuntimeConfig(-1, 2, {})` on a
fresh control plane returns no error and replaces the node's current snapshot. -/
theorem negative_count_is_published :
    (-1 : Int) < 0 ∧
    ∃ cp, NewControlPlane.SetRuntimeConfig 1700000000 (-1) 2 ∅ = .ok cp ∧
      cp.cache.lookup "envoy-shuffle-shard" ≠
        NewControlPlane.cache.lookup "envoy-shuffle-shard" := by
  refine ⟨by decide, _, setRuntimeConfig_eq _ _ _ _ _, ?_⟩
  show Finmap.lookup "envoy-shuffle-shard" (Finmap.insert "envoy-shuffle-shard" _ _) ≠ _
  rw [Finmap.lookup_insert]
  simp [NewControlPlane]

/-- C3, amended: `SetRuntimeConfig` does not validate its input. For every input, negative
counts included, it returns no error and makes the snapshot it built the node's current
snapshot; in particular it returns no error when all counts are non-negative. -/
theorem setRuntimeConfig_never_fails (cp : ControlPlane)
    (now totalHosts defaultShardSize : Int) (customerShards : AList (fun _ : String => Int)) :
    ∃ snapshot,
      buildSnapshot now totalHosts defaultShardSize customerShards = .ok snapshot ∧
      cp.SetRuntimeConfig now totalHosts defaultShardSize customerShards =
        .ok { cache := cp.cache.insert cp.nodeID snapshot, nodeID := cp.nodeID } ∧
      Finmap.lookup cp.nodeID (cp.cache.insert cp.nodeID snapshot) = some snapshot :=
  ⟨_, buildSnapshot_eq _ _ _ _, setRuntimeConfig_eq _ _ _ _ _, Finmap.lookup_insert _⟩

/-- C6, as stated, fails: `2^53 + 1 = 9007199254740993` is a Go `int` and `float64` of it is
`9007199254740992`; the largest `int`, `2^63 - 1`, becomes `2^63`. -/
theorem float64_loses_precision :
    isGoInt 9007199254740993 ∧ float64 9007199254740993 = 9007199254740992 ∧
    float64 9007199254740993 ≠ 9007199254740993 ∧
    isGoInt 9223372036854775807 ∧ float64 9223372036854775807 = 9223372036854775808 := by
  decide

/-- C6, amended: published counts are read back exactly when their magnitude is at most
`2^53`. For every `n` with `-2^53 ≤ n ≤ 2^53` passed as a count, the number stored in the
runtime layer, `float64(n)`, is numerically equal to `n`. -/
theorem float64_round_trip (n : Int) (hlo : -(2 : Int) ^ 53 ≤ n) (hhi : n ≤ (2 : Int) ^ 53) :
    float64 n = n ∧ numberValue n = Value.NumberValue n := by
  rw [numberValue, float64_exact n hlo hhi]
  exact ⟨rfl, rfl⟩

/-- The count `8` of `main`, and the bound `2^53` itself, are read back exactly. -/
theorem float64_round_trip_witness :
    (float64 8 = 8 ∧ numberValue 8 = Value.NumberValue 8) ∧
    (float64 9007199254740992 = 9007199254740992 ∧
      numberValue 9007199254740992 = Value.NumberValue 9007199254740992) :=
  ⟨float64_round_trip 8 (by decide) (by decide),
    float64_round_trip 9007199254740992 (by decide) (by decide)⟩

/-- C2, as stated, fails: two calls within the same clock second get the same outer version.
Two publishes on a fresh control plane, both at second `1700000000`, produce the version
`snapshot-1700000000` twice: the second neither exceeds nor differs from the first. -/
theorem same_second_versions_collide :
    (List.map Call.now
      [⟨1700000000, 8, 2, mainShards₀⟩, ⟨1700000000, 12, 2, mainShards₁⟩]).Pairwise (· ≤ ·) ∧
    publishVersions NewControlPlane
      [⟨1700000000, 8, 2, mainShards₀⟩, ⟨1700000000, 12, 2, mainShards₁⟩] =
      [(1700000000, "snapshot-1700000000"), (1700000000, "snapshot-1700000000")] ∧
    ¬ (publishVersions NewControlPlane
      [⟨1700000000, 8, 2, mainShards₀⟩, ⟨1700000000, 12, 2, mainShards₁⟩]).Pairwise
        (fun a b => versionSeconds a.2 < versionSeconds b.2 ∧ a.2 ≠ b.2) := by
  have hv : snapshotVersion 1700000000 = "snapshot-1700000000" := by
    simp [snapshotVersion, formatInt, formatBits, digitChar]
  refine ⟨by simp, ?_, ?_⟩
  · rw [publishVersions_eq]
    simp [hv]
  · rw [publishVersions_eq]
    simp

/-- C2, amended: the outer versions follow the clock second. For every sequence of
`SetRuntimeConfig` calls on the node, made at non-decreasing wall-clock times, every call
produces a version `snapshot-<unix seconds>`, the seconds carried by the versions are
non-decreasing, a call's version strictly exceeds and differs from the version of every
earlier call made in an earlier clock second, and two calls made within the same clock
second produce the same version. -/
theorem versions_follow_clock_second (cp : ControlPlane) (calls : List Call)
    (h : (calls.map Call.now).Pairwise (· ≤ ·)) :
    (publishVersions cp calls).length = calls.length ∧
    (∀ p ∈ publishVersions cp calls, p.2 = "snapshot-" ++ formatInt p.1) ∧
    (publishVersions cp calls).Pairwise (fun a b =>
      versionSeconds a.2 ≤ versionSeconds b.2 ∧
      (a.1 < b.1 → versionSeconds a.2 < versionSeconds b.2 ∧ a.2 ≠ b.2) ∧
      (a.1 = b.1 → a.2 = b.2)) := by
  rw [publishVersions_eq]
  refine ⟨by simp, ?_, ?_⟩
  · intro p hp
    obtain ⟨c, _, rfl⟩ := List.mem_map.1 hp
    rfl
  · rw [List.pairwise_map] at h ⊢
    refine h.imp ?_
    intro a b hab
    simp only [versionSeconds_snapshotVersion]
    refine ⟨hab, fun hlt => ⟨hlt, fun heq => ?_⟩, fun heq => by rw [heq]⟩
    have := snapshotVersion_injective heq
    omega

/-- The three publishes of `main`, thirty seconds apart, get three increasing versions. -/
theorem versions_follow_clock_second_witness :
    (publishVersions NewControlPlane
      [⟨1700000000, 8, 2, mainShards₀⟩, ⟨1700000030, 12, 2, mainShards₁⟩,
       ⟨1700000060, 12, 2, mainShards₂⟩]).length = 3 ∧
    (∀ p ∈ publishVersions NewControlPlane
      [⟨1700000000, 8, 2, mainShards₀⟩, ⟨1700000030, 12, 2, mainShards₁⟩,
       ⟨1700000060, 12, 2, mainShards₂⟩], p.2 = "snapshot-" ++ formatInt p.1) ∧
    (publishVersions NewControlPlane
      [⟨1700000000, 8, 2, mainShards₀⟩, ⟨1700000030, 12, 2, mainShards₁⟩,
       ⟨1700000060, 12, 2, mainShards₂⟩]).Pairwise (fun a b =>
      versionSeconds a.2 ≤ versionSeconds b.2 ∧
      (a.1 < b.1 → versionSeconds a.2 < versionSeconds b.2 ∧ a.2 ≠ b.2) ∧
      (a.1 = b.1 → a.2 = b.2)) :=
  versions_follow_clock_second NewControlPlane
    [⟨1700000000, 8, 2, mainShards₀⟩, ⟨1700000030, 12, 2, mainShards₁⟩,
     ⟨1700000060, 12, 2, mainShards₂⟩] (by simp)

/-- C5: snapshot construction is deterministic. Two runs of `SetRuntimeConfig` with the same
`totalHosts`, `defaultShardSize`, customer shards and clock second build equal snapshots
(same version, same resource name, same field map) and leave equal control planes, whatever
the order in which the `customerShards` map is iterated in either run. -/
theorem snapshot_is_deterministic (cp : ControlPlane) (now totalHosts defaultShardSize : Int)
    (customerShards₁ customerShards₂ : AList (fun _ : String => Int))
    (h : customerShards₁.entries.Perm customerShards₂.entries) :
    buildSnapshot now totalHosts defaultShardSize customerShards₁ =
      buildSnapshot now totalHosts defaultShardSize customerShards₂ ∧
    cp.SetRuntimeConfig now totalHosts defaultShardSize customerShards₁ =
      cp.SetRuntimeConfig now totalHosts defaultShardSize customerShards₂ := by
  rw [buildSnapshot_eq, buildSnapshot_eq, setRuntimeConfig_eq, setRuntimeConfig_eq,
    runtimeFields_perm totalHosts defaultShardSize customerShards₁ customerShards₂ h]
  exact ⟨rfl, rfl⟩

/-- The customer shards of the first publish of `main`, iterated from `customer-C` to
`customer-A`, give the same snapshot as iterated from `customer-A` to `customer-C`. -/
theorem snapshot_is_deterministic_witness :
    mainShards₀.entries.Perm
      ((((∅ : AList (fun _ : String => Int)).insert "customer-A" 2).insert "customer-B" 2).insert
        "customer-C" 2).entries ∧
    mainShards₀.entries ≠
      ((((∅ : AList (fun _ : String => Int)).insert "customer-A" 2).insert "customer-B" 2).insert
        "customer-C" 2).entries ∧
    buildSnapshot 1700000000 8 2 mainShards₀ =
      buildSnapshot 1700000000 8 2
        ((((∅ : AList (fun _ : String => Int)).insert "customer-A" 2).insert "customer-B" 2).insert
          "customer-C" 2) ∧
    NewControlPlane.SetRuntimeConfig 1700000000 8 2 mainShards₀ =
      NewControlPlane.SetRuntimeConfig 1700000000 8 2
        ((((∅ : AList (fun _ : String => Int)).insert "customer-A" 2).insert "customer-B" 2).insert
          "customer-C" 2) :=
  ⟨by decide, by decide,
    snapshot_is_deterministic NewControlPlane 1700000000 8 2 mainShards₀ _ (by decide)⟩

/-- C7: node independence of a publish. The node ID is fixed to `envoy-shuffle-shard` by
`NewControlPlane`; for every cache state and every input, `SetRuntimeConfig` keeps the node
ID and changes only the cache entry of that node ID: the current snapshot of every other
node ID is the same before and after the call. -/
theorem setRuntimeConfig_touches_own_node_only (cp : ControlPlane)
    (now totalHosts defaultShardSize : Int) (customerShards : AList (fun _ : String => Int)) :
    NewControlPlane.nodeID = "envoy-shuffle-shard" ∧
    ∃ cp', cp.SetRuntimeConfig now totalHosts defaultShardSize customerShards = .ok cp' ∧
      cp'.nodeID = cp.nodeID ∧
      ∀ node, node ≠ cp.nodeID → cp'.cache.lookup node = cp.cache.lookup node :=
  ⟨rfl, _, setRuntimeConfig_eq _ _ _ _ _, rfl,
    fun _ hnode => Finmap.lookup_insert_of_ne _ hnode⟩

/-- A cache that already holds a snapshot for the node `other-node` still holds the same
snapshot for it after a publish. -/
theorem setRuntimeConfig_touches_own_node_only_witness :
    ∃ cp',
      ControlPlane.SetRuntimeConfig
        { cache := Finmap.singleton "other-node" { Version := "v1", Resources := ∅ }
          nodeID := "envoy-shuffle-shard" } 1700000000 8 2 mainShards₀ = .ok cp' ∧
      cp'.cache.lookup "other-node" = some { Version := "v1", Resources := ∅ } ∧
      (cp'.cache.lookup "envoy-shuffle-shard").isSome = true := by
  obtain ⟨_, cp', h, _, hframe⟩ := setRuntimeConfig_touches_own_node_only
    { cache := Finmap.singleton "other-node" { Version := "v1", Resources := ∅ }
      nodeID := "envoy-shuffle-shard" } 1700000000 8 2 mainShards₀
  refine ⟨cp', h, ?_, ?_⟩
  · rw [hframe "other-node" (by decide)]
    exact Finmap.lookup_singleton_eq
  · rw [setRuntimeConfig_eq] at h
    cases h
    simp [Finmap.lookup_insert]

/-- C10: snapshot shape. For every input, the snapshot built by `SetRuntimeConfig`, which
becomes the node's current snapshot, carries exactly one resource, of the runtime resource
type and named `runtime`, whose layer is the whole field map; every other resource type of
the snapshot is empty; the outer version is `snapshot-` followed by the decimal rendering of
the Unix-seconds clock reading, which reads back as that clock reading. -/
theorem snapshot_shape (cp : ControlPlane) (now totalHosts defaultShardSize : Int)
    (customerShards : AList (fun _ : String => Int)) :
    ∃ cp' snapshot,
      buildSnapshot now totalHosts defaultShardSize customerShards = .ok snapshot ∧
      cp.SetRuntimeConfig now totalHosts defaultShardSize customerShards = .ok cp' ∧
      cp'.cache.lookup cp.nodeID = some snapshot ∧
      snapshot.GetResources resource.RuntimeType =
        [{ Name := "runtime"
           Layer := { Fields := runtimeFields totalHosts defaultShardSize customerShards } }] ∧
      (∀ typ, typ ≠ resource.RuntimeType → snapshot.GetResources typ = []) ∧
      snapshot.Version = "snapshot-" ++ formatInt now ∧
      parseInt (formatInt now) = now :=
  ⟨_, _, buildSnapshot_eq _ _ _ _, setRuntimeConfig_eq _ _ _ _ _, Finmap.lookup_insert _,
    getResources_runtime _ _, fun typ h => getResources_other _ _ typ h, rfl,
    parseInt_formatInt now⟩

/-- C4: a publish replaces the node's snapshot in full. The snapshot current after
`SetRuntimeConfig` is the one built from that call's arguments and clock reading, the same
for every prior cache state; a customer key absent from the new `customerShards` is absent
from it, whatever was published before. The three publishes of `main`, at any clock
readings, leave exactly `total_hosts = 12`, `default_shard_size = 2`, `customer-A = 3`,
`customer-B = 4`, `customer-C = 2`. -/
theorem publish_replaces_snapshot_in_full (now totalHosts defaultShardSize : Int)
    (customerShards : AList (fun _ : String => Int)) :
    (∃ snapshot,
      buildSnapshot now totalHosts defaultShardSize customerShards = .ok snapshot ∧
      (∀ cp : ControlPlane, ∃ cp',
        cp.SetRuntimeConfig now totalHosts defaultShardSize customerShards = .ok cp' ∧
        cp'.nodeID = cp.nodeID ∧ cp'.cache.lookup cp'.nodeID = some snapshot) ∧
      (∀ c, c ∉ customerShards →
        ∀ r ∈ snapshot.GetResources resource.RuntimeType, customerKey c ∉ r.Layer.Fields)) ∧
    (∀ t₀ t₁ t₂ : Int, ∃ cp snapshot,
      mainPublishes t₀ t₁ t₂ = .ok cp ∧ cp.cache.lookup cp.nodeID = some snapshot ∧
      snapshot.GetResources resource.RuntimeType =
        [{ Name := "runtime"
           Layer := { Fields := (List.toFinmap
            [⟨"shuffle_sharding.total_hosts", Value.NumberValue 12⟩,
             ⟨"shuffle_sharding.default_shard_size", Value.NumberValue 2⟩,
             ⟨"shuffle_sharding.customer.customer-A.shard_size", Value.NumberValue 3⟩,
             ⟨"shuffle_sharding.customer.customer-B.shard_size", Value.NumberValue 4⟩,
             ⟨"shuffle_sharding.customer.customer-C.shard_size", Value.NumberValue 2⟩]) } }]) := by
  constructor
  · refine ⟨_, buildSnapshot_eq _ _ _ _,
      fun cp => ⟨_, setRuntimeConfig_eq _ _ _ _ _, rfl, Finmap.lookup_insert _⟩, ?_⟩
    intro c hc r hr hmem
    rw [getResources_runtime, List.mem_singleton] at hr
    subst hr
    rcases (runtimeFields_mem _ _ _ _).1 hmem with h | h | ⟨c', hc', h⟩
    · exact customerKey_ne_total_hosts c h
    · exact customerKey_ne_default_shard_size c h
    · exact hc (customerKey_injective h ▸ hc')
  · intro t₀ t₁ t₂
    have hfields : runtimeFields 12 2 mainShards₂ = List.toFinmap
        [⟨"shuffle_sharding.total_hosts", Value.NumberValue 12⟩,
         ⟨"shuffle_sharding.default_shard_size", Value.NumberValue 2⟩,
         ⟨"shuffle_sharding.customer.customer-A.shard_size", Value.NumberValue 3⟩,
         ⟨"shuffle_sharding.customer.customer-B.shard_size", Value.NumberValue 4⟩,
         ⟨"shuffle_sharding.customer.customer-C.shard_size", Value.NumberValue 2⟩] := by
      decide
    have hmain : mainPublishes t₀ t₁ t₂ = .ok
        (publishIgnoringError
          (publishIgnoringError
            { cache := NewControlPlane.cache.insert NewControlPlane.nodeID
                { Version := snapshotVersion t₀
                  Resources := Finmap.insert resource.RuntimeType
                    [{ Name := "runtime"
                       Layer := { Fields := runtimeFields 8 2 mainShards₀ } }] ∅ }
              nodeID := NewControlPlane.nodeID } t₁ 12 2 mainShards₁) t₂ 12 2 mainShards₂) := by
      unfold mainPublishes
      rw [setRuntimeConfig_eq]
    refine ⟨_,
      { Version := snapshotVersion t₂
        Resources := Finmap.insert resource.RuntimeType
          [{ Name := "runtime", Layer := { Fields := runtimeFields 12 2 mainShards₂ } }] ∅ },
      hmain, ?_, ?_⟩
    · rw [publishIgnoringError_eq]
      exact Finmap.lookup_insert _
    · rw [getResources_runtime, hfields]

/-- After `(8, 2, {customer-A:2, customer-B:2, customer-C:2})`, a publish of
`(12, 2, {customer-A:3})` leaves no entry for `customer-B`, and exactly three entries. -/
theorem publish_replaces_snapshot_in_full_witness :
    ∃ cp₀ cp₁ snapshot,
      NewControlPlane.SetRuntimeConfig 1700000000 8 2 mainShards₀ = .ok cp₀ ∧
      cp₀.SetRuntimeConfig 1700000030 12 2
        ((∅ : AList (fun _ : String => Int)).insert "customer-A" 3) = .ok cp₁ ∧
      cp₁.cache.lookup cp₁.nodeID = some snapshot ∧
      (∀ r ∈ snapshot.GetResources resource.RuntimeType,
        customerKey "customer-B" ∉ r.Layer.Fields) ∧
      snapshot.GetResources resource.RuntimeType =
        [{ Name := "runtime"
           Layer := { Fields := (List.toFinmap
            [⟨"shuffle_sharding.total_hosts", Value.NumberValue 12⟩,
             ⟨"shuffle_sharding.default_shard_size", Value.NumberValue 2⟩,
             ⟨"shuffle_sharding.customer.customer-A.shard_size", Value.NumberValue 3⟩]) } }] := by
  obtain ⟨⟨snapshot, hbuild, hset, habsent⟩, _⟩ := publish_replaces_snapshot_in_full
    1700000030 12 2 ((∅ : AList (fun _ : String => Int)).insert "customer-A" 3)
  obtain ⟨cp₁, h₁, _, hcur⟩ := hset
    { cache := NewControlPlane.cache.insert NewControlPlane.nodeID
        { Version := snapshotVersion 1700000000
          Resources := Finmap.insert resource.RuntimeType
            [{ Name := "runtime", Layer := { Fields := runtimeFields 8 2 mainShards₀ } }] ∅ }
      nodeID := NewControlPlane.nodeID }
  refine ⟨_, cp₁, snapshot, setRuntimeConfig_eq _ _ _ _ _, h₁, hcur,
    habsent "customer-B" (by decide), ?_⟩
  rw [buildSnapshot_eq] at hbuild
  cases hbuild
  rw [getResources_runtime]
  have hfields : runtimeFields 12 2 ((∅ : AList (fun _ : String => Int)).insert "customer-A" 3) =
      List.toFinmap
        [⟨"shuffle_sharding.total_hosts", Value.NumberValue 12⟩,
         ⟨"shuffle_sharding.default_shard_size", Value.NumberValue 2⟩,
         ⟨"shuffle_sharding.customer.customer-A.shard_size", Value.NumberValue 3⟩] := by
    decide
  rw [hfields]

/-- The first publish of `main` builds a field map of `2 + 3` entries, and the entry of
`customer-B` holds the shard size `2` written for it. -/
theorem runtime_keys_never_collide_witness :
    (runtimeFields 8 2 mainShards₀).keys.card = 2 + 3 ∧
    (runtimeFields 8 2 mainShards₀).lookup "shuffle_sharding.customer.customer-B.shard_size" =
      some (Value.NumberValue 2) :=
  ⟨(runtime_keys_never_collide 8 2 mainShards₀).2.2.1,
    (runtime_keys_never_collide 8 2 mainShards₀).2.2.2.2.2 "customer-B" 2 (by decide)⟩

/-- The snapshot of the first publish of `main` at second `1700000000` holds no cluster
resources and has the version `snapshot-1700000000`. -/
theorem snapshot_shape_witness :
    ∃ snapshot, buildSnapshot 1700000000 8 2 mainShards₀ = .ok snapshot ∧
      snapshot.GetResources "type.googleapis.com/envoy.config.cluster.v3.Cluster" = [] ∧
      (snapshot.GetResources resource.RuntimeType).length = 1 ∧
      snapshot.Version = "snapshot-1700000000" := by
  obtain ⟨_, snapshot, hbuild, _, _, hruntime, hother, hversion, _⟩ :=
    snapshot_shape NewControlPlane 1700000000 8 2 mainShards₀
  refine ⟨snapshot, hbuild, hother _ (by decide), by rw [hruntime]; rfl, ?_⟩
  rw [hversion]
  simp [formatInt, formatBits, digitChar]

/-! ## Properties of a discovery session -/

/-- C8: at most one outstanding push per resource type. In every state a discovery session
reaches from a fresh connection, by any sequence of subscribe requests, cache notifications,
acks, nacks and disconnects, the pushes of one resource type that were sent and are answered
by neither an ack nor a nack number at most one; and a step sends a new push of a type only
when every earlier push of that type still outstanding before the step is answered by the
event of that very step (its ack or nack), so none is outstanding when the new push is
sent. -/
theorem at_most_one_outstanding_push_per_type (nodeID : String) (events : List SessionEvent)
    (typ : String) :
    ((DiscoverySession.run nodeID events).outstandingFor typ).length ≤ 1 ∧
    ∀ (e : SessionEvent) (p : Push),
      p ∈ ((DiscoverySession.run nodeID events).step e).outstanding →
      p ∉ (DiscoverySession.run nodeID events).outstanding → p.typ = typ →
      ∀ q ∈ (DiscoverySession.run nodeID events).outstandingFor typ,
        e.answers q ∧ q ∉ ((DiscoverySession.run nodeID events).step e).outstanding := by
  have hinv : SessionInv (DiscoverySession.run nodeID events) :=
    sessionInv_foldl events _ (sessionInv_fresh nodeID)
  refine ⟨sessionInv_outstandingFor _ hinv typ, ?_⟩
  intro e p hp hnew htyp q hq
  have hinv' := sessionInv_step _ e hinv
  obtain ⟨hq, hqt⟩ := List.mem_filter.1 hq
  have hgone : q ∉ ((DiscoverySession.run nodeID events).step e).outstanding := by
    intro hq'
    have hnonce := sessionInv_same_type _ hinv' p q hp hq'
      (htyp.trans (of_decide_eq_true hqt).symm)
    have hpq : p = q := List.inj_on_of_nodup_map hinv'.nonces_nodup hp hq' hnonce
    exact hnew (hpq ▸ hq)
  exact ⟨step_removed _ e q hq hgone, hgone⟩

/-- A session subscribed to the runtime type while the first snapshot of `main` is current
is pushed that snapshot with nonce 0. The second and third snapshots, arriving before the
ack, are queued behind it and only the third is kept; the ack of nonce 0 sends the third
snapshot at once with nonce 1, the push of nonce 0 being answered by that ack; after the
ack of nonce 1 nothing is outstanding and the session has converged to the third
snapshot. -/
theorem at_most_one_outstanding_push_per_type_witness :
    ((DiscoverySession.run "envoy-shuffle-shard"
      [.subscribe resource.RuntimeType [] (some mainSnapshot₀.delivery),
       .notify mainSnapshot₁.delivery,
       .notify mainSnapshot₂.delivery]).outstandingFor resource.RuntimeType).length ≤ 1 ∧
    ((DiscoverySession.run "envoy-shuffle-shard"
      [.subscribe resource.RuntimeType [] (some mainSnapshot₀.delivery),
       .notify mainSnapshot₁.delivery,
       .notify mainSnapshot₂.delivery]).outstandingFor resource.RuntimeType).map
        (fun p => (p.nonce, p.version)) = [(0, "snapshot-1700000000")] ∧
    ((DiscoverySession.run "envoy-shuffle-shard"
      [.subscribe resource.RuntimeType [] (some mainSnapshot₀.delivery),
       .notify mainSnapshot₁.delivery,
       .notify mainSnapshot₂.delivery,
       .ack resource.RuntimeType "snapshot-1700000000" 0]).outstandingFor
        resource.RuntimeType).map
        (fun p => (p.nonce, p.version)) = [(1, "snapshot-1700000060")] ∧
    (DiscoverySession.run "envoy-shuffle-shard"
      [.subscribe resource.RuntimeType [] (some mainSnapshot₀.delivery),
       .notify mainSnapshot₁.delivery,
       .notify mainSnapshot₂.delivery,
       .ack resource.RuntimeType "snapshot-1700000000" 0,
       .ack resource.RuntimeType "snapshot-1700000060" 1]).outstanding = [] ∧
    (DiscoverySession.run "envoy-shuffle-shard"
      [.subscribe resource.RuntimeType [] (some mainSnapshot₀.delivery),
       .notify mainSnapshot₁.delivery,
       .notify mainSnapshot₂.delivery,
       .ack resource.RuntimeType "snapshot-1700000000" 0,
       .ack resource.RuntimeType "snapshot-1700000060" 1]).lastAckedFor resource.RuntimeType =
      some "snapshot-1700000060" ∧
    (∀ q ∈ (DiscoverySession.run "envoy-shuffle-shard"
        [.subscribe resource.RuntimeType [] (some mainSnapshot₀.delivery),
         .notify mainSnapshot₁.delivery,
         .notify mainSnapshot₂.delivery]).outstandingFor resource.RuntimeType,
      (SessionEvent.ack resource.RuntimeType "snapshot-1700000000" 0).answers q ∧
      q ∉ ((DiscoverySession.run "envoy-shuffle-shard"
        [.subscribe resource.RuntimeType [] (some mainSnapshot₀.delivery),
         .notify mainSnapshot₁.delivery,
         .notify mainSnapshot₂.delivery]).step
          (.ack resource.RuntimeType "snapshot-1700000000" 0)).outstanding) :=
  ⟨(at_most_one_outstanding_push_per_type "envoy-shuffle-shard"
      [.subscribe resource.RuntimeType [] (some mainSnapshot₀.delivery),
       .notify mainSnapshot₁.delivery, .notify mainSnapshot₂.delivery]
      resource.RuntimeType).1,
    by decide, by decide, by decide, by decide,
    (at_most_one_outstanding_push_per_type "envoy-shuffle-shard"
      [.subscribe resource.RuntimeType [] (some mainSnapshot₀.delivery),
       .notify mainSnapshot₁.delivery, .notify mainSnapshot₂.delivery]
      resource.RuntimeType).2 (.ack resource.RuntimeType "snapshot-1700000000" 0)
      { typ := resource.RuntimeType, version := "snapshot-1700000060", nonce := 1,
        resources := mainSnapshot₂.GetResources resource.RuntimeType }
      (by decide) (by decide) rfl⟩

end XdsControlPlane
